import Mathlib

/-!
Verification of the rust-sfsm static finite state machine library.

The embedding follows the source:
* `StateBehavior` embeds the trait of `src/lib.rs`: a transition function
  `handle : State → Event → Context → Option State × Context` (the Rust
  signature takes `&mut Context` and returns `Option<State>`, modelled here
  by returning the possibly mutated context alongside the decision), and the
  `enter`/`exit` hooks `State → Context → Context`.
* `StateMachine` embeds the struct generated by the `rustfsm!` macro
  (fields `current_state` and `context`) together with its operations
  `new`, `transit`, `force_state`, `handle` (src/lib.rs lines 108-146) and
  the proc-macro variant `handle_event` (rust-sfsm-macros/src/lib.rs,
  `generate_state_machine_impl`).
* The two examples `protocol.rs` and `mario.rs` are embedded in the
  namespaces `Protocol` and `Mario`; `u8`/`u16` arithmetic is modelled on
  `Nat` with explicit reduction modulo `2^8`/`2^16` where the source
  performs wrapping machine arithmetic.
-/

/-- The `StateBehavior` trait: transition function plus enter/exit hooks.
The Rust default hooks are no-ops; concrete instances below override only
what the example overrides. -/
structure StateBehavior (S E C : Type) where
  handle : S → E → C → Option S × C
  enter : S → C → C
  exit : S → C → C

/-- The state machine struct generated by `rustfsm!`: one current state and
one context value. -/
structure StateMachine (S C : Type) where
  current_state : S
  context : C
deriving DecidableEq

namespace StateMachine

/-- Constructor `new(initial_state)`: current state is the argument, context is the
context type's default value (src/lib.rs lines 110-118). -/
def new {S C : Type} [Inhabited C] (initial_state : S) : StateMachine S C :=
  { current_state := initial_state, context := default }

/-- Supervised transition `transit(new_state)`: exit hook of the outgoing state, then assignment,
then enter hook of the (new) current state (src/lib.rs lines 121-125). -/
def transit {S E C : Type} (b : StateBehavior S E C) (m : StateMachine S C)
    (new_state : S) : StateMachine S C :=
  let c1 := b.exit m.current_state m.context
  let m1 : StateMachine S C := { current_state := new_state, context := c1 }
  { current_state := m1.current_state, context := b.enter m1.current_state m1.context }

/-- Unsupervised `force_state(new_state)`: direct assignment, no hook calls
(src/lib.rs lines 129-131). -/
def force_state {S C : Type} (m : StateMachine S C) (new_state : S) :
    StateMachine S C :=
  { current_state := new_state, context := m.context }

/-- Dispatch `handle(event)` as generated by the `rustfsm!` macro_rules macro: run the
current state's transition function with mutable context access; on `Some`,
inline exit / assign / enter (src/lib.rs lines 139-145). -/
def handle {S E C : Type} (b : StateBehavior S E C) (m : StateMachine S C)
    (e : E) : StateMachine S C :=
  match b.handle m.current_state e m.context with
  | (some next_state, c) =>
      let c1 := b.exit m.current_state c
      { current_state := next_state, context := b.enter next_state c1 }
  | (none, c) => { current_state := m.current_state, context := c }

/-- Dispatch `handle_event(event)` as generated by the `rust_sfsm` proc macro: run the
transition function; on `Some`, delegate to `transit`
(rust-sfsm-macros/src/lib.rs lines 208-212). -/
def handle_event {S E C : Type} (b : StateBehavior S E C) (m : StateMachine S C)
    (e : E) : StateMachine S C :=
  match b.handle m.current_state e m.context with
  | (some next_state, c) =>
      transit b { current_state := m.current_state, context := c } next_state
  | (none, c) => { current_state := m.current_state, context := c }

end StateMachine

/-- A record of one hook invocation, used to observe which hooks a driver
operation calls, on which state, and in which order. -/
inductive HookCall (S : Type) where
  | enterCall (s : S)
  | exitCall (s : S)
deriving DecidableEq

/-- Instrumented behavior: the context is the list of hook invocations; the
transition decision is an arbitrary pure function `t`, and each hook appends
its own record (so the driver's hook calls, their arguments and their order
are exactly the appended log entries). -/
def loggingBehavior (S E : Type) (t : S → E → Option S) :
    StateBehavior S E (List (HookCall S)) where
  handle := fun s e log => (t s e, log)
  enter := fun s log => log ++ [HookCall.enterCall s]
  exit := fun s log => log ++ [HookCall.exitCall s]

namespace Protocol

/-- Protocol states (examples/protocol.rs), default is `Init`. -/
inductive States where
  | Init
  | Opened
  | Closed
  | Locked
deriving DecidableEq

instance : Inhabited States := ⟨States.Init⟩

/-- Protocol events (examples/protocol.rs). -/
inductive Events where
  | Create
  | Open
  | Close
  | Lock
  | Unlock
deriving DecidableEq

/-- Protocol context: a `u16` lock counter, default 0, modelled on `Nat`
reduced modulo `2^16` at the increment. -/
structure Context where
  lock_counter : Nat
deriving DecidableEq

instance : Inhabited Context := ⟨⟨0⟩⟩

/-- Hook `enter` of the protocol's `StateBehavior` impl: entering `Locked`
increments the lock counter (wrapping `u16` addition). -/
def enter (s : States) (c : Context) : Context :=
  if s = States.Locked then { c with lock_counter := (c.lock_counter + 1) % 65536 }
  else c

/-- Transition function `handle` of the protocol's `StateBehavior` impl: the five transitions of
the match, everything else falls to `_ => None`; the context is untouched. -/
def handle (s : States) (e : Events) (c : Context) : Option States × Context :=
  match s, e with
  | States.Init, Events.Create => (some States.Opened, c)
  | States.Opened, Events.Close => (some States.Closed, c)
  | States.Closed, Events.Open => (some States.Opened, c)
  | States.Closed, Events.Lock => (some States.Locked, c)
  | States.Locked, Events.Unlock => (some States.Closed, c)
  | _, _ => (none, c)

/-- The protocol's behavior record: its `handle` and `enter`, and the trait's
default no-op `exit` (not overridden in the example). -/
def behavior : StateBehavior States Events Context where
  handle := handle
  enter := enter
  exit := fun _ c => c

/-- A freshly constructed protocol driver: state `Init`, default context. -/
def newMachine : StateMachine States Context := StateMachine.new States.Init

/-- Dispatch a list of events in order through the driver's `handle`. -/
def run (evs : List Events) : StateMachine States Context :=
  evs.foldl (fun m e => StateMachine.handle behavior m e) newMachine

end Protocol

namespace Mario

/-- Mario consumables (examples/mario.rs). -/
inductive MarioConsumables where
  | Mushroom
  | Flower
  | Feather
deriving DecidableEq

/-- The big-Mario sub-states (examples/mario.rs). -/
inductive BigMarioStates where
  | SuperMario
  | CapeMario
  | FireMario
deriving DecidableEq

/-- The alive-Mario sub-states (examples/mario.rs). -/
inductive AliveStates where
  | SmallMario
  | BigMario (b : BigMarioStates)
deriving DecidableEq

/-- Mario states; the `Default` impl picks `AliveMario SmallMario`. -/
inductive States where
  | AliveMario (a : AliveStates)
  | DeadMario
deriving DecidableEq

instance : Inhabited States := ⟨States.AliveMario AliveStates.SmallMario⟩

/-- Mario events (examples/mario.rs). -/
inductive Events where
  | GetConsumable (c : MarioConsumables)
  | GetHit
deriving DecidableEq

/-- Mario context: `u8` life counter and `u16` coin counter, defaults 1 and 0,
modelled on `Nat` with wrapping arithmetic made explicit at each operation. -/
structure Context where
  number_of_lifes : Nat
  number_of_coins : Nat
deriving DecidableEq

instance : Inhabited Context := ⟨⟨1, 0⟩⟩

/-- Hook `enter` of Mario's `StateBehavior` impl: small resets coins to 0, each big
variant adds its bonus (wrapping `u16`), dead zeroes the life counter. -/
def enter (s : States) (c : Context) : Context :=
  match s with
  | States.AliveMario AliveStates.SmallMario => { c with number_of_coins := 0 }
  | States.AliveMario (AliveStates.BigMario BigMarioStates.SuperMario) =>
      { c with number_of_coins := (c.number_of_coins + 100) % 65536 }
  | States.AliveMario (AliveStates.BigMario BigMarioStates.FireMario) =>
      { c with number_of_coins := (c.number_of_coins + 200) % 65536 }
  | States.AliveMario (AliveStates.BigMario BigMarioStates.CapeMario) =>
      { c with number_of_coins := (c.number_of_coins + 300) % 65536 }
  | States.DeadMario => { c with number_of_lifes := 0 }

/-- Transition function `handle_event` of Mario's `StateBehavior` impl, arm for arm; the
`GetHit`-while-small arm with life counter other than 1 decrements the life
counter (wrapping `u8` subtraction) and returns `None`. -/
def handle_event (s : States) (e : Events) (c : Context) : Option States × Context :=
  match s, e with
  | States.AliveMario AliveStates.SmallMario,
    Events.GetConsumable MarioConsumables.Mushroom =>
      (some (States.AliveMario (AliveStates.BigMario BigMarioStates.SuperMario)), c)
  | States.AliveMario AliveStates.SmallMario,
    Events.GetConsumable MarioConsumables.Flower =>
      (some (States.AliveMario (AliveStates.BigMario BigMarioStates.FireMario)), c)
  | States.AliveMario (AliveStates.BigMario BigMarioStates.SuperMario),
    Events.GetConsumable MarioConsumables.Flower =>
      (some (States.AliveMario (AliveStates.BigMario BigMarioStates.FireMario)), c)
  | States.AliveMario (AliveStates.BigMario BigMarioStates.CapeMario),
    Events.GetConsumable MarioConsumables.Flower =>
      (some (States.AliveMario (AliveStates.BigMario BigMarioStates.FireMario)), c)
  | States.AliveMario AliveStates.SmallMario,
    Events.GetConsumable MarioConsumables.Feather =>
      (some (States.AliveMario (AliveStates.BigMario BigMarioStates.CapeMario)), c)
  | States.AliveMario (AliveStates.BigMario BigMarioStates.SuperMario),
    Events.GetConsumable MarioConsumables.Feather =>
      (some (States.AliveMario (AliveStates.BigMario BigMarioStates.CapeMario)), c)
  | States.AliveMario (AliveStates.BigMario BigMarioStates.FireMario),
    Events.GetConsumable MarioConsumables.Feather =>
      (some (States.AliveMario (AliveStates.BigMario BigMarioStates.CapeMario)), c)
  | States.AliveMario AliveStates.SmallMario, Events.GetHit =>
      if c.number_of_lifes = 1 then (some States.DeadMario, c)
      else (none, { c with number_of_lifes := (c.number_of_lifes + 255) % 256 })
  | States.AliveMario (AliveStates.BigMario _), Events.GetHit =>
      (some (States.AliveMario AliveStates.SmallMario), c)
  | _, _ => (none, c)

/-- Mario's behavior record: `handle_event` and `enter` as above, `exit` is
the trait's default no-op (not overridden in the example). -/
def behavior : StateBehavior States Events Context where
  handle := handle_event
  enter := enter
  exit := fun _ c => c

/-- Constructor `Mario::new()`: default state (small) and default context (1 life,
0 coins). -/
def newMachine : StateMachine States Context :=
  { current_state := default, context := default }

/-- Dispatch a list of events in order through the driver's `handle_event`. -/
def run (evs : List Events) : StateMachine States Context :=
  evs.foldl (fun m e => StateMachine.handle_event behavior m e) newMachine

end Mario

/-- One driver operation, for comparing the two generated drivers over whole
call sequences. -/
inductive MachineOp (S E : Type) where
  | handleOp (e : E)
  | transitOp (s : S)
  | forceOp (s : S)

/-- Run a sequence of operations through the macro_rules-generated driver
(dispatch is the inlined `handle`). -/
def runInline {S E C : Type} (b : StateBehavior S E C) (m : StateMachine S C)
    (ops : List (MachineOp S E)) : StateMachine S C :=
  ops.foldl
    (fun m op =>
      match op with
      | MachineOp.handleOp e => StateMachine.handle b m e
      | MachineOp.transitOp s => StateMachine.transit b m s
      | MachineOp.forceOp s => StateMachine.force_state m s)
    m

/-- Run a sequence of operations through the proc-macro-generated driver
(dispatch is `handle_event`, which delegates to `transit`). -/
def runDelegate {S E C : Type} (b : StateBehavior S E C) (m : StateMachine S C)
    (ops : List (MachineOp S E)) : StateMachine S C :=
  ops.foldl
    (fun m op =>
      match op with
      | MachineOp.handleOp e => StateMachine.handle_event b m e
      | MachineOp.transitOp s => StateMachine.transit b m s
      | MachineOp.forceOp s => StateMachine.force_state m s)
    m

namespace Mario

/-- Invariant on Mario machines: alive states carry exactly 1 life, the dead
state carries 0 lives. -/
def Inv (m : StateMachine States Context) : Prop :=
  (∀ a, m.current_state = States.AliveMario a → m.context.number_of_lifes = 1) ∧
  (m.current_state = States.DeadMario → m.context.number_of_lifes = 0)

end Mario

/-- C1: a supervised transition — `transit(next)`, or `handle(event)` when the
current state's transition function returns `Some(next)` — performs exactly
three steps in order: the exit hook of the outgoing state on the context, the
assignment of `next` as current state, and the enter hook of `next` on the
context. The first conjunct states the exit-then-enter composition for every
behavior and context; the second observes, on the hook-logging instantiation,
that exactly the records exit(old) then enter(next) are appended, in that
order, for both entry points. -/
theorem transit_supervised_order :
    (∀ (S E C : Type) (b : StateBehavior S E C) (m : StateMachine S C) (next : S),
      StateMachine.transit b m next =
        { current_state := next,
          context := b.enter next (b.exit m.current_state m.context) }) ∧
    (∀ (S E : Type) (t : S → E → Option S) (s next : S) (e : E)
        (log : List (HookCall S)),
      StateMachine.transit (loggingBehavior S E t) ⟨s, log⟩ next =
        ⟨next, log ++ [HookCall.exitCall s, HookCall.enterCall next]⟩ ∧
      (t s e = some next →
        StateMachine.handle (loggingBehavior S E t) ⟨s, log⟩ e =
          ⟨next, log ++ [HookCall.exitCall s, HookCall.enterCall next]⟩)) := by
  constructor
  · intro S E C b m next
    rfl
  · intro S E t s next e log
    constructor
    · simp [StateMachine.transit, loggingBehavior]
    · intro h
      simp [StateMachine.handle, loggingBehavior, h]

/-- Witness for C1 at a concrete driver: the decision function always answers
state 7, so dispatching event 0 from state 1 logs exit(1) then enter(7) and
lands in state 7. -/
theorem transit_supervised_order_witness :
    StateMachine.handle (loggingBehavior Nat Nat (fun _ _ => some 7)) ⟨1, []⟩ 0 =
      ⟨7, [HookCall.exitCall 1, HookCall.enterCall 7]⟩ :=
  (transit_supervised_order.2 Nat Nat (fun _ _ => some 7) 1 7 0 []).2 rfl

/-- C2 (counterexample): the claim "when the transition function returns
`None`, `handle` leaves state and context byte-for-byte unchanged" fails on
the Mario machine at state small with 2 lives: `GetHit` makes the transition
function return `None`, yet the dispatch leaves the life counter decremented
from 2 to 1 (the transition function itself mutated the context). -/
theorem handle_none_unchanged_counterexample :
    (Mario.behavior.handle (Mario.States.AliveMario Mario.AliveStates.SmallMario)
        Mario.Events.GetHit ⟨2, 0⟩).1 = none ∧
    (StateMachine.handle Mario.behavior
        ⟨Mario.States.AliveMario Mario.AliveStates.SmallMario, ⟨2, 0⟩⟩
        Mario.Events.GetHit).current_state =
      Mario.States.AliveMario Mario.AliveStates.SmallMario ∧
    (StateMachine.handle Mario.behavior
        ⟨Mario.States.AliveMario Mario.AliveStates.SmallMario, ⟨2, 0⟩⟩
        Mario.Events.GetHit).context ≠ (⟨2, 0⟩ : Mario.Context) := by
  decide

/-- C2 (amended): when the transition function returns `None`, `handle`
leaves the current state unchanged and performs no context modification of
its own — the resulting context is exactly the one the transition function
left behind; in particular, when the transition function leaves the context
unchanged, the whole machine is byte-for-byte unchanged. -/
theorem handle_none_frame (S E C : Type) (b : StateBehavior S E C)
    (m : StateMachine S C) (e : E) :
    ((b.handle m.current_state e m.context).1 = none →
      StateMachine.handle b m e =
        { current_state := m.current_state,
          context := (b.handle m.current_state e m.context).2 }) ∧
    (b.handle m.current_state e m.context = (none, m.context) →
      StateMachine.handle b m e = m) := by
  constructor
  · intro h
    unfold StateMachine.handle
    rcases hb : b.handle m.current_state e m.context with ⟨r, c⟩
    rw [hb] at h
    cases r with
    | none => simp [hb]
    | some n => simp at h
  · intro h
    unfold StateMachine.handle
    rw [h]

/-- Witness for C2's amended theorem: the protocol machine in state `Init`
dispatching `Open` (no transition defined, context untouched) is unchanged. -/
theorem handle_none_frame_witness :
    StateMachine.handle Protocol.behavior
        ⟨Protocol.States.Init, ⟨0⟩⟩ Protocol.Events.Open =
      ⟨Protocol.States.Init, ⟨0⟩⟩ :=
  (handle_none_frame Protocol.States Protocol.Events Protocol.Context
    Protocol.behavior ⟨Protocol.States.Init, ⟨0⟩⟩ Protocol.Events.Open).2 rfl

/-- C3: on the hook-logging instantiation, `handle(event)` appends no hook
record when the transition function returns `None` (neither hook fires, state
and log unchanged), and appends exactly one exit record and one enter record,
in that order, when it returns `Some n` — including the self-transition case
`Some s` from state `s`, where both hooks fire once each for that same state,
exit before enter. -/
theorem handle_hooks_exactly_once (S E : Type) (t : S → E → Option S)
    (s : S) (e : E) (log : List (HookCall S)) :
    (t s e = none →
      StateMachine.handle (loggingBehavior S E t) ⟨s, log⟩ e = ⟨s, log⟩) ∧
    (∀ n, t s e = some n →
      StateMachine.handle (loggingBehavior S E t) ⟨s, log⟩ e =
        ⟨n, log ++ [HookCall.exitCall s, HookCall.enterCall n]⟩) ∧
    (t s e = some s →
      StateMachine.handle (loggingBehavior S E t) ⟨s, log⟩ e =
        ⟨s, log ++ [HookCall.exitCall s, HookCall.enterCall s]⟩) := by
  refine ⟨fun h => ?_, fun n h => ?_, fun h => ?_⟩ <;>
    simp [StateMachine.handle, loggingBehavior, h]

/-- Witness for C3: with a decision function mapping everything to
`some 5`, dispatching from state 5 is a self-transition whose log gains
exactly exit(5) then enter(5); with the always-`none` decision the machine is
untouched. -/
theorem handle_hooks_exactly_once_witness :
    StateMachine.handle (loggingBehavior Nat Nat (fun _ _ => some 5)) ⟨5, []⟩ 0 =
      ⟨5, [HookCall.exitCall 5, HookCall.enterCall 5]⟩ ∧
    StateMachine.handle (loggingBehavior Nat Nat (fun _ _ => none)) ⟨5, []⟩ 0 =
      ⟨5, []⟩ :=
  ⟨(handle_hooks_exactly_once Nat Nat (fun _ _ => some 5) 5 0 []).2.2 rfl,
   (handle_hooks_exactly_once Nat Nat (fun _ _ => none) 5 0 []).1 rfl⟩

/-- C4: `force_state(next)` assigns `next` as current state and leaves the
context untouched, for every machine; on the hook-logging instantiation the
hook log is unchanged, so neither the exit hook of the old state nor the
enter hook of `next` is invoked. -/
theorem force_state_no_hooks :
    (∀ (S C : Type) (m : StateMachine S C) (next : S),
      StateMachine.force_state m next =
        { current_state := next, context := m.context }) ∧
    (∀ (S : Type) (old next : S) (log : List (HookCall S)),
      StateMachine.force_state
          (⟨old, log⟩ : StateMachine S (List (HookCall S))) next =
        ⟨next, log⟩) :=
  ⟨fun _ _ _ _ => rfl, fun _ _ _ _ => rfl⟩

/-- C5: the protocol scenario. From a fresh driver (state `Init`, lock
counter 0), dispatching Create, Close, Lock, Unlock, Open traverses
Init→Opened→Closed→Locked→Closed→Opened, and the lock counter is 1 right
after the Lock dispatch and still 1 after Unlock and Open. -/
theorem protocol_scenario :
    Protocol.newMachine.current_state = Protocol.States.Init ∧
    Protocol.newMachine.context.lock_counter = 0 ∧
    (Protocol.run [Protocol.Events.Create]).current_state =
      Protocol.States.Opened ∧
    (Protocol.run [Protocol.Events.Create, Protocol.Events.Close]).current_state =
      Protocol.States.Closed ∧
    (Protocol.run [Protocol.Events.Create, Protocol.Events.Close,
        Protocol.Events.Lock]).current_state = Protocol.States.Locked ∧
    (Protocol.run [Protocol.Events.Create, Protocol.Events.Close,
        Protocol.Events.Lock]).context.lock_counter = 1 ∧
    (Protocol.run [Protocol.Events.Create, Protocol.Events.Close,
        Protocol.Events.Lock, Protocol.Events.Unlock]).current_state =
      Protocol.States.Closed ∧
    (Protocol.run [Protocol.Events.Create, Protocol.Events.Close,
        Protocol.Events.Lock, Protocol.Events.Unlock]).context.lock_counter = 1 ∧
    (Protocol.run [Protocol.Events.Create, Protocol.Events.Close,
        Protocol.Events.Lock, Protocol.Events.Unlock,
        Protocol.Events.Open]).current_state = Protocol.States.Opened ∧
    (Protocol.run [Protocol.Events.Create, Protocol.Events.Close,
        Protocol.Events.Lock, Protocol.Events.Unlock,
        Protocol.Events.Open]).context.lock_counter = 1 := by
  decide

/-- C6: Mario transitions. (1) `GetConsumable Mushroom` from small goes to
big/SuperMario and, absent `u16` wraparound, adds exactly 100 coins on entry.
(2) `GetHit` from small with exactly 1 life goes to `DeadMario` and zeroes
the life counter. (3) `GetHit` from any big variant goes back to small,
resets the coin counter to 0 on entry, and leaves the life counter (and the
rest of the context) unchanged. -/
theorem mario_transitions :
    (∀ (c : Mario.Context), c.number_of_coins + 100 < 65536 →
      StateMachine.handle_event Mario.behavior
          ⟨Mario.States.AliveMario Mario.AliveStates.SmallMario, c⟩
          (Mario.Events.GetConsumable Mario.MarioConsumables.Mushroom) =
        ⟨Mario.States.AliveMario
            (Mario.AliveStates.BigMario Mario.BigMarioStates.SuperMario),
          { c with number_of_coins := c.number_of_coins + 100 }⟩) ∧
    (∀ (c : Mario.Context), c.number_of_lifes = 1 →
      StateMachine.handle_event Mario.behavior
          ⟨Mario.States.AliveMario Mario.AliveStates.SmallMario, c⟩
          Mario.Events.GetHit =
        ⟨Mario.States.DeadMario, { c with number_of_lifes := 0 }⟩) ∧
    (∀ (v : Mario.BigMarioStates) (c : Mario.Context),
      StateMachine.handle_event Mario.behavior
          ⟨Mario.States.AliveMario (Mario.AliveStates.BigMario v), c⟩
          Mario.Events.GetHit =
        ⟨Mario.States.AliveMario Mario.AliveStates.SmallMario,
          { c with number_of_coins := 0 }⟩) := by
  refine ⟨fun c h => ?_, fun c h => ?_, fun v c => ?_⟩
  · simp [StateMachine.handle_event, StateMachine.transit, Mario.behavior,
      Mario.handle_event, Mario.enter, Nat.mod_eq_of_lt h]
  · simp [StateMachine.handle_event, StateMachine.transit, Mario.behavior,
      Mario.handle_event, Mario.enter, h]
  · cases v <;>
      simp [StateMachine.handle_event, StateMachine.transit, Mario.behavior,
        Mario.handle_event, Mario.enter]

/-- Witness for C6 at the initial context (1 life, 0 coins): the mushroom
dispatch lands in big/SuperMario with 100 coins, a hit with 1 life lands in
`DeadMario` with 0 lives, and a hit from big/CapeMario lands back in small
with 0 coins. -/
theorem mario_transitions_witness :
    StateMachine.handle_event Mario.behavior
        ⟨Mario.States.AliveMario Mario.AliveStates.SmallMario, ⟨1, 0⟩⟩
        (Mario.Events.GetConsumable Mario.MarioConsumables.Mushroom) =
      ⟨Mario.States.AliveMario
          (Mario.AliveStates.BigMario Mario.BigMarioStates.SuperMario),
        ⟨1, 100⟩⟩ ∧
    StateMachine.handle_event Mario.behavior
        ⟨Mario.States.AliveMario Mario.AliveStates.SmallMario, ⟨1, 0⟩⟩
        Mario.Events.GetHit =
      ⟨Mario.States.DeadMario, ⟨0, 0⟩⟩ ∧
    StateMachine.handle_event Mario.behavior
        ⟨Mario.States.AliveMario
            (Mario.AliveStates.BigMario Mario.BigMarioStates.CapeMario), ⟨1, 300⟩⟩
        Mario.Events.GetHit =
      ⟨Mario.States.AliveMario Mario.AliveStates.SmallMario, ⟨1, 0⟩⟩ :=
  ⟨mario_transitions.1 ⟨1, 0⟩ (by decide),
   mario_transitions.2.1 ⟨1, 0⟩ rfl,
   mario_transitions.2.2 Mario.BigMarioStates.CapeMario ⟨1, 300⟩⟩

/-- C7: the constructor `new(s)` yields a driver whose current state is `s`
and whose context is the context type's default value; on the hook-logging
instantiation (default log: empty) the log of a fresh driver is empty, so no
enter or exit hook — in particular not the initial state's enter hook — runs
at construction. -/
theorem new_initial_state_default_context :
    (∀ (S C : Type) [Inhabited C] (s : S),
      (StateMachine.new s : StateMachine S C).current_state = s ∧
      (StateMachine.new s : StateMachine S C).context = default) ∧
    (∀ (S : Type) (s : S),
      (StateMachine.new s : StateMachine S (List (HookCall S))).context = []) :=
  ⟨fun _ _ _ _ => ⟨rfl, rfl⟩, fun _ _ => rfl⟩

/-- C8: the core operations are total. For every behavior whose transition and
hook functions are total, `handle` always lands in one of its two defined
outcomes — no-transition (state kept, context as the transition function left
it) or supervised transition to the returned state — and `transit`,
`force_state` and `current_state` yield a defined result on every input;
there is no failure outcome of any kind. -/
theorem core_ops_total (S E C : Type) (b : StateBehavior S E C)
    (m : StateMachine S C) (e : E) (s : S) :
    (((b.handle m.current_state e m.context).1 = none ∧
        StateMachine.handle b m e =
          { current_state := m.current_state,
            context := (b.handle m.current_state e m.context).2 }) ∨
      (∃ n, (b.handle m.current_state e m.context).1 = some n ∧
        StateMachine.handle b m e =
          StateMachine.transit b
            { current_state := m.current_state,
              context := (b.handle m.current_state e m.context).2 } n)) ∧
    (∃ m1, StateMachine.transit b m s = m1) ∧
    (∃ m2, StateMachine.force_state m s = m2) ∧
    (∃ x, m.current_state = x) := by
  refine ⟨?_, ⟨_, rfl⟩, ⟨_, rfl⟩, ⟨_, rfl⟩⟩
  rcases hb : b.handle m.current_state e m.context with ⟨r, c⟩
  cases r with
  | none =>
      left
      simp [StateMachine.handle, hb]
  | some n =>
      right
      exact ⟨n, by simp [hb], by simp [StateMachine.handle,
        StateMachine.transit, hb]⟩

/-- Pointwise agreement of the two generated dispatch methods: the inlined
exit/assign/enter of the macro_rules driver computes the same machine as the
proc-macro driver's delegation to `transit`. -/
theorem handle_eq_handle_event {S E C : Type} (b : StateBehavior S E C)
    (m : StateMachine S C) (e : E) :
    StateMachine.handle b m e = StateMachine.handle_event b m e := by
  unfold StateMachine.handle StateMachine.handle_event StateMachine.transit
  rcases hb : b.handle m.current_state e m.context with ⟨r, c⟩
  cases r <;> rfl

/-- C9: the two generated drivers are observationally equivalent — for every
behavior, every starting machine (any initial state and context) and every
sequence of `handle`/`transit`/`force_state` operations, running the sequence
through the macro_rules driver and through the proc-macro driver yields the
same current state and the same context. -/
theorem drivers_observationally_equivalent (S E C : Type)
    (b : StateBehavior S E C) (m : StateMachine S C)
    (ops : List (MachineOp S E)) :
    runInline b m ops = runDelegate b m ops := by
  induction ops generalizing m with
  | nil => rfl
  | cons op rest ih =>
      cases op with
      | handleOp e =>
          simp [runInline, runDelegate, handle_eq_handle_event, ih]
      | transitOp s =>
          simpa [runInline, runDelegate] using
            ih (StateMachine.transit b m s)
      | forceOp s =>
          exact ih (StateMachine.force_state m s)

/-- The Mario life invariant is preserved by one `handle_event` dispatch. -/
theorem mario_inv_step (m : StateMachine Mario.States Mario.Context)
    (hInv : Mario.Inv m) (e : Mario.Events) :
    Mario.Inv (StateMachine.handle_event Mario.behavior m e) := by
  obtain ⟨s, c⟩ := m
  obtain ⟨hAlive, hDead⟩ := hInv
  cases s with
  | AliveMario a =>
      have hl : c.number_of_lifes = 1 := hAlive a rfl
      cases a with
      | SmallMario =>
          cases e with
          | GetConsumable k =>
              cases k <;>
                simp [Mario.Inv, StateMachine.handle_event, StateMachine.transit,
                  Mario.behavior, Mario.handle_event, Mario.enter, hl]
          | GetHit =>
              simp [Mario.Inv, StateMachine.handle_event, StateMachine.transit,
                Mario.behavior, Mario.handle_event, Mario.enter, hl]
      | BigMario v =>
          cases e with
          | GetConsumable k =>
              cases v <;> cases k <;>
                simp [Mario.Inv, StateMachine.handle_event, StateMachine.transit,
                  Mario.behavior, Mario.handle_event, Mario.enter, hl]
          | GetHit =>
              cases v <;>
                simp [Mario.Inv, StateMachine.handle_event, StateMachine.transit,
                  Mario.behavior, Mario.handle_event, Mario.enter, hl]
  | DeadMario =>
      have hl : c.number_of_lifes = 0 := hDead rfl
      cases e with
      | GetConsumable k =>
          cases k <;>
            simp [Mario.Inv, StateMachine.handle_event,
              Mario.behavior, Mario.handle_event, hl]
      | GetHit =>
          simp [Mario.Inv, StateMachine.handle_event,
            Mario.behavior, Mario.handle_event, hl]

/-- The Mario life invariant is preserved by any dispatch sequence. -/
theorem mario_inv_foldl (evs : List Mario.Events)
    (m : StateMachine Mario.States Mario.Context) (hInv : Mario.Inv m) :
    Mario.Inv (evs.foldl (fun m e => StateMachine.handle_event Mario.behavior m e) m) := by
  induction evs generalizing m with
  | nil => exact hInv
  | cons e rest ih => exact ih _ (mario_inv_step m hInv e)

/-- C10: on every machine reachable from `Mario::new()` by dispatching any
event sequence, the life counter is 1 in every alive state and 0 in the dead
state; consequently, in any reachable small state a `GetHit` makes the
transition function take the `Some(DeadMario)` branch with the context
untouched, so the life-counter-decrement branch never runs and the `u8`
subtraction never underflows. -/
theorem mario_life_invariant (evs : List Mario.Events) :
    (∀ a, (Mario.run evs).current_state = Mario.States.AliveMario a →
      (Mario.run evs).context.number_of_lifes = 1) ∧
    ((Mario.run evs).current_state = Mario.States.DeadMario →
      (Mario.run evs).context.number_of_lifes = 0) ∧
    ((Mario.run evs).current_state =
        Mario.States.AliveMario Mario.AliveStates.SmallMario →
      Mario.behavior.handle (Mario.run evs).current_state Mario.Events.GetHit
          (Mario.run evs).context =
        (some Mario.States.DeadMario, (Mario.run evs).context)) := by
  have hInv : Mario.Inv (Mario.run evs) :=
    mario_inv_foldl evs Mario.newMachine ⟨fun a _ => rfl, fun h => nomatch h⟩
  obtain ⟨hAlive, hDead⟩ := hInv
  refine ⟨hAlive, hDead, fun hs => ?_⟩
  have hl : (Mario.run evs).context.number_of_lifes = 1 :=
    hAlive Mario.AliveStates.SmallMario hs
  simp [Mario.behavior, Mario.handle_event, hs, hl]

/-- Witness for C10 on concrete runs: a fresh driver is in the small state,
where a `GetHit` decision is `Some(DeadMario)` with untouched context, and
after dispatching one `GetHit` the machine is dead with 0 lives. -/
theorem mario_life_invariant_witness :
    Mario.behavior.handle (Mario.run []).current_state Mario.Events.GetHit
        (Mario.run []).context =
      (some Mario.States.DeadMario, (Mario.run []).context) ∧
    (Mario.run [Mario.Events.GetHit]).context.number_of_lifes = 0 :=
  ⟨(mario_life_invariant []).2.2 rfl,
   (mario_life_invariant [Mario.Events.GetHit]).2.1 (by decide)⟩
